import Mathlib

/-!
Verification of the state-reconciliation layer of an expense-tracker
application: list normalization, defaults fallback, batched multi-path
store writes, debounced/deduplicated change streams, and the in-progress
flag discipline of the settings component.

The TypeScript source is embedded shallowly: JSON-like store snapshots
become the inductive RawValue, component methods become pure state
transitions returning a final state together with the ordered list of
external effects they issue, and the async success/failure of a remote
call becomes an explicit outcome parameter.
-/

/-- A JSON-like value as delivered by the remote tree store: null, string,
number, boolean, ordered array, or keyed object (the store's encoding of
sparse arrays). -/
inductive RawValue where
  | vnull : RawValue
  | vstr : String → RawValue
  | vnum : Int → RawValue
  | vbool : Bool → RawValue
  | varr : List RawValue → RawValue
  | vobj : List (String × RawValue) → RawValue

/-- The filter applied by normalizeStringList to each candidate element:
keep it exactly when it is a string of positive length. -/
def asNonEmptyString : RawValue → Option String
  | RawValue.vstr s => if s.length > 0 then some s else none
  | _ => none

/-- Shallow embedding of normalizeStringList (identical in the settings
component and the layout component): an array keeps its non-empty-string
elements in order; a non-null object takes its values in iteration order
and applies the same filter; anything else (absent, null, scalar) yields
the empty list. -/
def normalizeStringList : Option RawValue → List String
  | some (RawValue.varr xs) => xs.filterMap asNonEmptyString
  | some (RawValue.vobj kvs) => (kvs.map Prod.snd).filterMap asNonEmptyString
  | _ => []

/-- Property-access on a snapshot value, as in (snapshot.val() ?? \x7b\x7d).field:
only a keyed object yields a field value; arrays, scalars, null and absent
values yield undefined (none). -/
def objGet (v : Option RawValue) (key : String) : Option RawValue :=
  match v with
  | some (RawValue.vobj kvs) => (kvs.find? (fun kv => kv.1 = key)).map Prod.snd
  | _ => none

/-- Modelled from the spec: the configured default expense-category list
(the constant defaultExpenseCategories lives in
shared/constants/expense-constants, which is not part of the provided
sources; the spec fixes only that it is a fixed ordered sequence of
strings supplied at startup, so a representative concrete list is used). -/
def defaultExpenseCategories : List String :=
  ["Food", "Travel", "Utilities", "Entertainment"]

/-- Modelled from the spec: the configured default expense source-type
list (same missing constants module as defaultExpenseCategories). -/
def defaultExpenseTypes : List String :=
  ["Cash", "Card", "Bank Transfer"]

/-- A chip option as displayed by the settings component: a value string
together with the derived removable flag. -/
structure ChipOption where
  value : String
  removable : Bool
deriving DecidableEq, Repr

/-- An expense record; the reconciliation core treats it as an opaque
value, so it is embedded as an opaque wrapper. -/
structure Expense where
  payload : String
deriving DecidableEq, Repr

/-- An external effect issued by a component method, in program order:
a whole-value set at a store path, a single multi-path update, a
categories-changed announcement on the notification bus, or a snackbar
notification to the human. -/
inductive Effect where
  | storeSet : String → List String → Effect
  | storeMultiUpdate : List (String × Option Expense) → Effect
  | announceCategoriesAdded : String → Effect
  | snackbar : String → Effect
deriving DecidableEq, Repr

namespace DatabaseService

/-- Shallow embedding of DatabaseService.saveNewCategories: one set of the
whole list at users/userId/categories. -/
def saveNewCategories (categories : List String) (userId : String) : Effect :=
  Effect.storeSet ("users/" ++ userId ++ "/categories") categories

/-- Shallow embedding of DatabaseService.saveNewExpenseSourceTypes: one set
of the whole list at users/userId/types. -/
def saveNewExpenseSourceTypes (types : List String) (userId : String) : Effect :=
  Effect.storeSet ("users/" ++ userId ++ "/types") types

/-- The scoping loop of batchUpdateExpenses: each key k of the updates map
is rewritten to the absolute path users/uid/expenses/k, keeping its value
(none encodes the JS null, meaning delete). -/
def scopedUpdates (uid : String) (updates : List (String × Option Expense)) :
    List (String × Option Expense) :=
  updates.map (fun kv => ("users/" ++ uid ++ "/expenses/" ++ kv.1, kv.2))

/-- Shallow embedding of the new-style overload
batchUpdateExpenses(userId, updates): scopes every key and submits the
result as one multi-path update at the store root. -/
def batchUpdateExpenses (userId : String) (updates : List (String × Option Expense)) :
    List Effect :=
  [Effect.storeMultiUpdate (scopedUpdates userId updates)]

/-- Shallow embedding of the legacy overload batchUpdateExpenses(updates):
the user id is inferred from the authenticated session (none when no user
is signed in, some uid otherwise; a falsy uid also fails); on failure the
call throws before any store write. -/
def batchUpdateExpensesLegacy (authUid : Option String)
    (updates : List (String × Option Expense)) : Except String (List Effect) :=
  match authUid with
  | some uid =>
      if uid.isEmpty then Except.error "Not signed in"
      else Except.ok (batchUpdateExpenses uid updates)
  | none => Except.error "Not signed in"

/-- The update map built by batchPushExpensesWithBatch: one generated key
per expense, in iteration order (keyGen i is the key returned by the i-th
push; none embeds a null key, which the source skips). -/
def batchPushEntries (keyGen : Nat → Option String) (expenses : List Expense)
    (userId : String) : List (String × Expense) :=
  expenses.enum.filterMap (fun ie =>
    match keyGen ie.1 with
    | some newKey => some ("users/" ++ userId ++ "/expenses/" ++ newKey, ie.2)
    | none => none)

/-- Shallow embedding of batchPushExpensesWithBatch: builds the update map
with one pre-allocated key per expense and submits it as a single
multi-path update. -/
def batchPushExpensesWithBatch (keyGen : Nat → Option String) (expenses : List Expense)
    (userId : String) : List Effect :=
  [Effect.storeMultiUpdate
    ((batchPushEntries keyGen expenses userId).map (fun pe => (pe.1, some pe.2)))]

/-- Shallow embedding of rxjs debounceTime over a timestamped event list
(times nondecreasing): an event is suppressed when the next event arrives
strictly inside its d-unit quiet window; a surviving event is emitted d
units after its arrival. -/
def debounceTimeF {α : Type} (d : Nat) : List (Nat × α) → List (Nat × α)
  | [] => []
  | [(t, a)] => [(t + d, a)]
  | (t1, a1) :: (t2, a2) :: rest =>
      if t2 < t1 + d then debounceTimeF d ((t2, a2) :: rest)
      else (t1 + d, a1) :: debounceTimeF d ((t2, a2) :: rest)

/-- The running comparison of rxjs distinctUntilChanged with a custom
comparator: an element equal (under the serialization ser) to the last
emitted element is suppressed and does not become the comparison basis. -/
def distinctStep {α : Type} (ser : α → String) (prev : α) : List α → List α
  | [] => []
  | x :: xs =>
      if ser x = ser prev then distinctStep ser prev xs
      else x :: distinctStep ser x xs

/-- Shallow embedding of rxjs distinctUntilChanged with a serialization
comparator: the first emission always passes. -/
def distinctUntilChangedSer {α : Type} (ser : α → String) : List α → List α
  | [] => []
  | x :: xs => x :: distinctStep ser x xs

/-- Shallow embedding of the getUserExpenses pipeline:
snapshotChanges().pipe(debounceTime(500), distinctUntilChanged(stringify
equality)). Events are timestamped snapshot-list emissions; ser embeds
JSON.stringify on the emitted value. -/
def getUserExpenses {α : Type} (ser : α → String) (events : List (Nat × α)) :
    List (Nat × α) :=
  distinctUntilChangedSer (fun p => ser p.2) (debounceTimeF 500 events)

end DatabaseService

/-- The resolution of the user id in the components:
getUser()?.uid || getUserId(); JS falsiness of a string is emptiness, and
an absent id is embedded as the empty string. -/
def resolveUid (userUid fallbackUid : String) : String :=
  if userUid.isEmpty then fallbackUid else userUid

/-- Outcome of an awaited remote write (the promise resolved, or rejected
with an error message). -/
inductive SaveOutcome where
  | success : SaveOutcome
  | failure : String → SaveOutcome
deriving DecidableEq, Repr

/-- Outcome of an awaited remote read: the snapshot value at users/uid
(none embeds a null snapshot), or a rejection with an error message. -/
inductive LoadOutcome where
  | success : Option RawValue → LoadOutcome
  | failure : String → LoadOutcome

namespace ExpenseSettingsComponent

/-- The signal state of the expense-settings component: working and
committed chip lists for both taxonomies, the canonical string lists held
by the shared ExpenseDataService, and the four in-progress flags. -/
structure SettingsState where
  categoriesSignal : List ChipOption
  copyCategoriesSignal : List ChipOption
  sourceTypeSignal : List ChipOption
  sourceTypeSignalOriginal : List ChipOption
  serviceCategories : List String
  serviceSourceTypes : List String
  isLoadingUserInformation : Bool
  isLoadingUserCategories : Bool
  isUpdatingCategories : Bool
  isUpdatingSourceTypes : Bool
deriving DecidableEq, Repr

/-- Shallow embedding of the chip-list construction in
setCategoriesOptions: removable is the negation of lodash includes on the
default category list. -/
def setCategoriesOptions (categoriesArr : List String) : List ChipOption :=
  categoriesArr.map (fun category =>
    { value := category, removable := !(defaultExpenseCategories.contains category) })

/-- Shallow embedding of the chip-list construction in
setSourceTypeOptions: removable is the negation of lodash includes on the
default source-type list. -/
def setSourceTypeOptions (sourceTypes : List String) : List ChipOption :=
  sourceTypes.map (fun t =>
    { value := t, removable := !(defaultExpenseTypes.contains t) })

/-- Shallow embedding of saveCategories as a state transition: sets the
updating flag, resolves the uid (snackbar and reset when missing),
otherwise issues saveNewCategories with the working copy's values and, on
promise resolution, commits service state and the copy signal, notifies,
announces, and clears the flag; on rejection only notifies the message and
clears the flag. -/
def saveCategories (userUid fallbackUid : String) (outcome : SaveOutcome)
    (s : SettingsState) : SettingsState × List Effect :=
  let s1 := { s with isUpdatingCategories := true }
  let uid := resolveUid userUid fallbackUid
  if uid.isEmpty then
    ({ s1 with isUpdatingCategories := false }, [Effect.snackbar "No user id found."])
  else
    let newList := s1.categoriesSignal.map ChipOption.value
    let call := DatabaseService.saveNewCategories newList uid
    match outcome with
    | SaveOutcome.success =>
        ({ s1 with serviceCategories := newList,
                   copyCategoriesSignal := s1.categoriesSignal,
                   isUpdatingCategories := false },
         [call, Effect.snackbar "Categories saved!",
          Effect.announceCategoriesAdded "Categories Added"])
    | SaveOutcome.failure msg =>
        ({ s1 with isUpdatingCategories := false },
         [call, Effect.snackbar msg])

/-- Shallow embedding of saveTypes as a state transition, mirroring
saveCategories against users/uid/types, committing the source-type
original signal and service state on success, with no categories
announcement. -/
def saveTypes (userUid fallbackUid : String) (outcome : SaveOutcome)
    (s : SettingsState) : SettingsState × List Effect :=
  let s1 := { s with isUpdatingSourceTypes := true }
  let uid := resolveUid userUid fallbackUid
  if uid.isEmpty then
    ({ s1 with isUpdatingSourceTypes := false }, [Effect.snackbar "No user id found."])
  else
    let newList := s1.sourceTypeSignal.map ChipOption.value
    let call := DatabaseService.saveNewExpenseSourceTypes newList uid
    match outcome with
    | SaveOutcome.success =>
        ({ s1 with sourceTypeSignalOriginal := s1.sourceTypeSignal,
                   serviceSourceTypes := newList,
                   isUpdatingSourceTypes := false },
         [call, Effect.snackbar "Expense Source Types saved!"])
    | SaveOutcome.failure msg =>
        ({ s1 with isUpdatingSourceTypes := false },
         [call, Effect.snackbar msg])

/-- Shallow embedding of the component's getAllUserDetails as a state
transition: silent early return when no uid resolves; otherwise both
loading flags are set, the snapshot's categories and types sub-fields are
normalized, the default list is substituted when a normalized list is
empty, both option setters run (the categories one also committing service
state and announcing), and the loading flags are cleared on success and on
failure alike. -/
def getAllUserDetails (userUid fallbackUid : String) (outcome : LoadOutcome)
    (s : SettingsState) : SettingsState × List Effect :=
  let uid := resolveUid userUid fallbackUid
  if uid.isEmpty then (s, [])
  else
    let s1 := { s with isLoadingUserInformation := true, isLoadingUserCategories := true }
    match outcome with
    | LoadOutcome.success snapshotVal =>
        let categoriesList := normalizeStringList (objGet snapshotVal "categories")
        let sourceTypesList := normalizeStringList (objGet snapshotVal "types")
        let catsArr := if categoriesList.length ≠ 0 then categoriesList
                       else defaultExpenseCategories
        let typesArr := if sourceTypesList.length ≠ 0 then sourceTypesList
                        else defaultExpenseTypes
        let categories := setCategoriesOptions catsArr
        let types := setSourceTypeOptions typesArr
        ({ s1 with categoriesSignal := categories,
                   copyCategoriesSignal := categories,
                   serviceCategories := catsArr,
                   sourceTypeSignal := types,
                   sourceTypeSignalOriginal := types,
                   isLoadingUserInformation := false,
                   isLoadingUserCategories := false },
         [Effect.announceCategoriesAdded "Categories Added"])
    | LoadOutcome.failure msg =>
        ({ s1 with isLoadingUserInformation := false,
                   isLoadingUserCategories := false },
         [Effect.snackbar ("Error! " ++ msg ++ ".")])

end ExpenseSettingsComponent

namespace LayoutComponent

/-- The per-session canonical data held by the shared ExpenseDataService,
as touched by the layout component. -/
structure DataServiceState where
  expensesData : List Expense
  timeFrameFilter : Option String
  filesImported : List String
  categoriesSignal : List String
  expenseSources : List String
deriving DecidableEq, Repr

/-- The layout component's view of the session: the signed-in user (none
after sign-out) and the shared data-service state. -/
structure SessionState where
  user : Option String
  dataService : DataServiceState
deriving DecidableEq, Repr

/-- Shallow embedding of logout, applied once authService.signOut()
resolves: the user is cleared and every shared data-service field is reset
(expenses and imported files to empty, the time-frame filter to undefined,
both taxonomies to fresh copies of their defaults). -/
def logout (_s : SessionState) : SessionState :=
  { user := none,
    dataService :=
      { expensesData := [],
        timeFrameFilter := none,
        filesImported := [],
        categoriesSignal := defaultExpenseCategories,
        expenseSources := defaultExpenseTypes } }

/-- The three normalized lists produced by the layout component's
getAllUserDetails on a successful read of users/uid. -/
structure LoadedLists where
  categories : List String
  sourceTypes : List String
  filesImported : List String
deriving DecidableEq, Repr

/-- Shallow embedding of the data hydration in the layout component's
getAllUserDetails: each sub-field is normalized; categories and types fall
back to the defaults when empty, while filesImported is stored as-is. -/
def getAllUserDetails (snapshotVal : Option RawValue) : LoadedLists :=
  let categoriesList := normalizeStringList (objGet snapshotVal "categories")
  let sourceTypesList := normalizeStringList (objGet snapshotVal "types")
  let filesImported := normalizeStringList (objGet snapshotVal "filesImported")
  { categories := if categoriesList.length ≠ 0 then categoriesList
                  else defaultExpenseCategories,
    sourceTypes := if sourceTypesList.length ≠ 0 then sourceTypesList
                   else defaultExpenseTypes,
    filesImported := filesImported }

end LayoutComponent

/-- The specification-side predicate on raw elements: the element is a
string of positive length. Used to state, independently of the embedding
of the filter, which elements normalization must keep. -/
def isNonEmptyStr : RawValue → Bool
  | RawValue.vstr s => s.length > 0
  | _ => false

theorem filterMap_asNonEmptyString_map (xs : List RawValue) :
    (xs.filterMap asNonEmptyString).map RawValue.vstr = xs.filter isNonEmptyStr := by
  induction xs with
  | nil => rfl
  | cons v xs ih =>
      rcases v with _ | s | n | b | ys | kvs
      · simpa [asNonEmptyString, isNonEmptyStr] using ih
      · by_cases h : 0 < s.length
        · simpa [asNonEmptyString, isNonEmptyStr, h] using ih
        · simpa [asNonEmptyString, isNonEmptyStr, h] using ih
      · simpa [asNonEmptyString, isNonEmptyStr] using ih
      · simpa [asNonEmptyString, isNonEmptyStr] using ih
      · simpa [asNonEmptyString, isNonEmptyStr] using ih
      · simpa [asNonEmptyString, isNonEmptyStr] using ih

theorem mem_filterMap_asNonEmptyString {s : String} {xs : List RawValue}
    (h : s ∈ xs.filterMap asNonEmptyString) : 0 < s.length := by
  rcases List.mem_filterMap.mp h with ⟨v, _, hv⟩
  rcases v with _ | s2 | n | b | ys | kvs <;> simp [asNonEmptyString] at hv
  obtain ⟨h1, h2⟩ := hv
  exact h2 ▸ h1

/-- Claim C1: normalizeStringList is a total function whose result always
consists of non-empty strings; absent, null and scalar inputs yield the
empty list; an array input keeps exactly its non-empty-string elements in
order; a keyed-object input takes its values in iteration order and keeps
exactly the non-empty strings among them, in order. -/
theorem normalizeStringList_total_filter :
    (normalizeStringList none = [] ∧
     normalizeStringList (some RawValue.vnull) = [] ∧
     (∀ n : Int, normalizeStringList (some (RawValue.vnum n)) = []) ∧
     (∀ b : Bool, normalizeStringList (some (RawValue.vbool b)) = []) ∧
     (∀ s : String, normalizeStringList (some (RawValue.vstr s)) = [])) ∧
    (∀ xs : List RawValue,
      (normalizeStringList (some (RawValue.varr xs))).map RawValue.vstr =
        xs.filter isNonEmptyStr) ∧
    (∀ kvs : List (String × RawValue),
      (normalizeStringList (some (RawValue.vobj kvs))).map RawValue.vstr =
        (kvs.map Prod.snd).filter isNonEmptyStr) ∧
    (∀ r : Option RawValue, ∀ s : String, s ∈ normalizeStringList r → 0 < s.length) := by
  refine ⟨⟨rfl, rfl, fun _ => rfl, fun _ => rfl, fun _ => rfl⟩, ?_, ?_, ?_⟩
  · intro xs
    exact filterMap_asNonEmptyString_map xs
  · intro kvs
    exact filterMap_asNonEmptyString_map (kvs.map Prod.snd)
  · intro r s hs
    match r with
    | none => simp [normalizeStringList] at hs
    | some RawValue.vnull => simp [normalizeStringList] at hs
    | some (RawValue.vnum n) => simp [normalizeStringList] at hs
    | some (RawValue.vbool b) => simp [normalizeStringList] at hs
    | some (RawValue.vstr s2) => simp [normalizeStringList] at hs
    | some (RawValue.varr xs) => exact mem_filterMap_asNonEmptyString hs
    | some (RawValue.vobj kvs) => exact mem_filterMap_asNonEmptyString hs

/-- Concrete instantiation of claim C1's membership hypothesis: the string
kept from a mixed array is non-empty. -/
theorem normalizeStringList_total_filter_witness : 0 < "ab".length :=
  normalizeStringList_total_filter.2.2.2
    (some (RawValue.varr [RawValue.vstr "ab", RawValue.vnum 3])) "ab"
    (by simp [normalizeStringList, asNonEmptyString]; decide)

theorem mem_setCategoriesOptions_removable {arr : List String} {e : ChipOption}
    (he : e ∈ ExpenseSettingsComponent.setCategoriesOptions arr) :
    e.removable = false ↔ e.value ∈ defaultExpenseCategories := by
  rcases List.mem_map.mp he with ⟨v, _, hv⟩
  subst hv
  simp

theorem mem_setSourceTypeOptions_removable {arr : List String} {e : ChipOption}
    (he : e ∈ ExpenseSettingsComponent.setSourceTypeOptions arr) :
    e.removable = false ↔ e.value ∈ defaultExpenseTypes := by
  rcases List.mem_map.mp he with ⟨v, _, hv⟩
  subst hv
  simp

theorem setCategoriesOptions_map_value (arr : List String) :
    (ExpenseSettingsComponent.setCategoriesOptions arr).map ChipOption.value = arr := by
  simp [ExpenseSettingsComponent.setCategoriesOptions, Function.comp_def]

theorem setSourceTypeOptions_map_value (arr : List String) :
    (ExpenseSettingsComponent.setSourceTypeOptions arr).map ChipOption.value = arr := by
  simp [ExpenseSettingsComponent.setSourceTypeOptions, Function.comp_def]

theorem setCategoriesOptions_defaults_not_removable
    {e : ChipOption}
    (he : e ∈ ExpenseSettingsComponent.setCategoriesOptions defaultExpenseCategories) :
    e.removable = false := by
  rcases List.mem_map.mp he with ⟨v, hv, he2⟩
  subst he2
  simpa using hv

/-- Claim C8: the derived removable flag on an option entry is false
exactly when its value belongs to the corresponding default list under
exact string comparison (for both taxonomies), and in particular every
entry built from the default category list is non-removable. -/
theorem isRemovable_default_membership :
    (∀ arr : List String, ∀ e ∈ ExpenseSettingsComponent.setCategoriesOptions arr,
       (e.removable = false ↔ e.value ∈ defaultExpenseCategories)) ∧
    (∀ arr : List String, ∀ e ∈ ExpenseSettingsComponent.setSourceTypeOptions arr,
       (e.removable = false ↔ e.value ∈ defaultExpenseTypes)) ∧
    (∀ e ∈ ExpenseSettingsComponent.setCategoriesOptions defaultExpenseCategories,
       e.removable = false) :=
  ⟨fun _ _ he => mem_setCategoriesOptions_removable he,
   fun _ _ he => mem_setSourceTypeOptions_removable he,
   fun _ he => setCategoriesOptions_defaults_not_removable he⟩

/-- Concrete instantiation of claim C8: the entry built from the default
value Food is non-removable, and the one built from a user value is
removable exactly when that value is a default (it is not). -/
theorem isRemovable_default_membership_witness :
    (({ value := "Food", removable := false } : ChipOption).removable = false ↔
      ({ value := "Food", removable := false } : ChipOption).value ∈ defaultExpenseCategories) :=
  isRemovable_default_membership.1 ["Food"] { value := "Food", removable := false } (by decide)

/-- Claim C2: when the stored categories field normalizes to the empty
list (absent included), the load yields the default category list exactly
and in order, with every entry marked non-removable; the defaults
fallback is likewise applied to source types but never to the
imported-files list. -/
theorem loadForUser_defaults_fallback (userUid fallbackUid : String)
    (snap : Option RawValue) (s : ExpenseSettingsComponent.SettingsState)
    (huid : (resolveUid userUid fallbackUid).isEmpty = false)
    (hcat : normalizeStringList (objGet snap "categories") = []) :
    ((ExpenseSettingsComponent.getAllUserDetails userUid fallbackUid
        (LoadOutcome.success snap) s).1.categoriesSignal.map ChipOption.value =
          defaultExpenseCategories ∧
     ∀ e ∈ (ExpenseSettingsComponent.getAllUserDetails userUid fallbackUid
        (LoadOutcome.success snap) s).1.categoriesSignal, e.removable = false) ∧
    (LayoutComponent.getAllUserDetails snap).categories = defaultExpenseCategories ∧
    (∀ snap2 : Option RawValue, normalizeStringList (objGet snap2 "types") = [] →
       (LayoutComponent.getAllUserDetails snap2).sourceTypes = defaultExpenseTypes) ∧
    (∀ snap2 : Option RawValue,
       (LayoutComponent.getAllUserDetails snap2).filesImported =
         normalizeStringList (objGet snap2 "filesImported")) := by
  have hres : (ExpenseSettingsComponent.getAllUserDetails userUid fallbackUid
      (LoadOutcome.success snap) s).1.categoriesSignal =
      ExpenseSettingsComponent.setCategoriesOptions defaultExpenseCategories := by
    simp [ExpenseSettingsComponent.getAllUserDetails, huid, hcat]
  refine ⟨⟨?_, ?_⟩, ?_, ?_, ?_⟩
  · rw [hres, setCategoriesOptions_map_value]
  · rw [hres]
    exact fun e he => setCategoriesOptions_defaults_not_removable he
  · simp [LayoutComponent.getAllUserDetails, hcat]
  · intro snap2 h2
    simp [LayoutComponent.getAllUserDetails, h2]
  · intro snap2
    rfl

/-- Concrete instantiation of claim C2: loading user u1 with a null
snapshot yields the default category values. -/
theorem loadForUser_defaults_fallback_witness :
    (ExpenseSettingsComponent.getAllUserDetails "u1" "" (LoadOutcome.success none)
        { categoriesSignal := [], copyCategoriesSignal := [], sourceTypeSignal := [],
          sourceTypeSignalOriginal := [], serviceCategories := [], serviceSourceTypes := [],
          isLoadingUserInformation := false, isLoadingUserCategories := false,
          isUpdatingCategories := false,
          isUpdatingSourceTypes := false }).1.categoriesSignal.map ChipOption.value =
      defaultExpenseCategories :=
  (loadForUser_defaults_fallback "u1" "" none _ (by rfl) (by rfl)).1.1

/-- Claim C4: with a resolvable user id, saveCategories on remote success
replaces the committed snapshot (the copy signal and the shared service
list) with the new list and fires the categoriesChanged announcement; on
remote failure neither the committed snapshot nor the working copy
changes and the store's error message is surfaced verbatim. -/
theorem saveCategories_commit_or_rollback (userUid fallbackUid : String)
    (s : ExpenseSettingsComponent.SettingsState)
    (huid : (resolveUid userUid fallbackUid).isEmpty = false) :
    ((ExpenseSettingsComponent.saveCategories userUid fallbackUid SaveOutcome.success
        s).1.copyCategoriesSignal = s.categoriesSignal ∧
     (ExpenseSettingsComponent.saveCategories userUid fallbackUid SaveOutcome.success
        s).1.serviceCategories = s.categoriesSignal.map ChipOption.value ∧
     Effect.announceCategoriesAdded "Categories Added" ∈
       (ExpenseSettingsComponent.saveCategories userUid fallbackUid SaveOutcome.success s).2) ∧
    (∀ msg : String,
     (ExpenseSettingsComponent.saveCategories userUid fallbackUid (SaveOutcome.failure msg)
        s).1.categoriesSignal = s.categoriesSignal ∧
     (ExpenseSettingsComponent.saveCategories userUid fallbackUid (SaveOutcome.failure msg)
        s).1.copyCategoriesSignal = s.copyCategoriesSignal ∧
     (ExpenseSettingsComponent.saveCategories userUid fallbackUid (SaveOutcome.failure msg)
        s).1.serviceCategories = s.serviceCategories ∧
     Effect.snackbar msg ∈
       (ExpenseSettingsComponent.saveCategories userUid fallbackUid
         (SaveOutcome.failure msg) s).2) := by
  constructor
  · refine ⟨?_, ?_, ?_⟩ <;> simp [ExpenseSettingsComponent.saveCategories, huid]
  · intro msg
    refine ⟨?_, ?_, ?_, ?_⟩ <;> simp [ExpenseSettingsComponent.saveCategories, huid]

/-- Concrete instantiation of claim C4: a failed save for user u1 leaves
the working chip list unchanged. -/
theorem saveCategories_commit_or_rollback_witness :
    (ExpenseSettingsComponent.saveCategories "u1" "" (SaveOutcome.failure "boom")
        { categoriesSignal := [{ value := "Coffee", removable := true }],
          copyCategoriesSignal := [], sourceTypeSignal := [],
          sourceTypeSignalOriginal := [], serviceCategories := [], serviceSourceTypes := [],
          isLoadingUserInformation := false, isLoadingUserCategories := false,
          isUpdatingCategories := false,
          isUpdatingSourceTypes := false }).1.categoriesSignal =
      [{ value := "Coffee", removable := true }] :=
  ((saveCategories_commit_or_rollback "u1" "" _ (by rfl)).2 "boom").1

/-- Claim C5: with no resolvable user id, saveCategories notifies, resets
the in-progress flag, and issues no store operation of any kind,
whatever the working list or the (never awaited) remote outcome. -/
theorem saveCategories_missing_user (userUid fallbackUid : String)
    (outcome : SaveOutcome) (s : ExpenseSettingsComponent.SettingsState)
    (huid : (resolveUid userUid fallbackUid).isEmpty = true) :
    ExpenseSettingsComponent.saveCategories userUid fallbackUid outcome s =
      ({ s with isUpdatingCategories := false }, [Effect.snackbar "No user id found."]) ∧
    (ExpenseSettingsComponent.saveCategories userUid fallbackUid outcome
        s).1.isUpdatingCategories = false ∧
    ∀ e ∈ (ExpenseSettingsComponent.saveCategories userUid fallbackUid outcome s).2,
      (∀ p v, e ≠ Effect.storeSet p v) ∧ ∀ es, e ≠ Effect.storeMultiUpdate es := by
  refine ⟨?_, ?_, ?_⟩
  · simp [ExpenseSettingsComponent.saveCategories, huid]
  · simp [ExpenseSettingsComponent.saveCategories, huid]
  · intro e he
    simp [ExpenseSettingsComponent.saveCategories, huid] at he
    subst he
    exact ⟨fun p v => by simp, fun es => by simp⟩

/-- Concrete instantiation of claim C5: saving with an empty user id
performs only the snackbar notification and clears the flag. -/
theorem saveCategories_missing_user_witness :
    ExpenseSettingsComponent.saveCategories "" "" SaveOutcome.success
        { categoriesSignal := [{ value := "Coffee", removable := true }],
          copyCategoriesSignal := [], sourceTypeSignal := [],
          sourceTypeSignalOriginal := [], serviceCategories := [], serviceSourceTypes := [],
          isLoadingUserInformation := false, isLoadingUserCategories := false,
          isUpdatingCategories := true, isUpdatingSourceTypes := false } =
      ({ categoriesSignal := [{ value := "Coffee", removable := true }],
         copyCategoriesSignal := [], sourceTypeSignal := [],
         sourceTypeSignalOriginal := [], serviceCategories := [], serviceSourceTypes := [],
         isLoadingUserInformation := false, isLoadingUserCategories := false,
         isUpdatingCategories := false, isUpdatingSourceTypes := false },
       [Effect.snackbar "No user id found."]) :=
  (saveCategories_missing_user "" "" SaveOutcome.success _ (by rfl)).1

/-- Counterexample to claim C10 as stated: when getAllUserDetails
short-circuits on a missing user id, it returns before touching the
loading flags, so a loading flag that was true at entry is still true
when the operation finishes, not false. -/
theorem inProgress_flags_counterexample :
    ¬ (∀ (u f : String) (o : LoadOutcome) (s : ExpenseSettingsComponent.SettingsState),
        (ExpenseSettingsComponent.getAllUserDetails u f o s).1.isLoadingUserCategories =
          false) := by
  intro h
  have hc := h "" "" (LoadOutcome.failure "boom")
    { categoriesSignal := [], copyCategoriesSignal := [], sourceTypeSignal := [],
      sourceTypeSignalOriginal := [], serviceCategories := [], serviceSourceTypes := [],
      isLoadingUserInformation := false, isLoadingUserCategories := true,
      isUpdatingCategories := false, isUpdatingSourceTypes := false }
  exact absurd hc (by decide)

/-- Claim C10 as amended: saveCategories and saveTypes leave their
updating flags false on every completion path (success, failure, and the
missing-user short-circuit, which resets the flag explicitly); the load
operation leaves both loading flags false on its remote success and
failure paths, while its missing-user short-circuit returns with the
whole state unchanged (so its flags are false exactly when they already
were at entry). -/
theorem inProgress_flags_cleared_amended :
    (∀ (u f : String) (o : SaveOutcome) (s : ExpenseSettingsComponent.SettingsState),
       (ExpenseSettingsComponent.saveCategories u f o s).1.isUpdatingCategories = false) ∧
    (∀ (u f : String) (o : SaveOutcome) (s : ExpenseSettingsComponent.SettingsState),
       (ExpenseSettingsComponent.saveTypes u f o s).1.isUpdatingSourceTypes = false) ∧
    (∀ (u f : String) (o : LoadOutcome) (s : ExpenseSettingsComponent.SettingsState),
       (resolveUid u f).isEmpty = false →
       (ExpenseSettingsComponent.getAllUserDetails u f o s).1.isLoadingUserInformation =
           false ∧
       (ExpenseSettingsComponent.getAllUserDetails u f o s).1.isLoadingUserCategories =
           false) ∧
    (∀ (u f : String) (o : LoadOutcome) (s : ExpenseSettingsComponent.SettingsState),
       (resolveUid u f).isEmpty = true →
       (ExpenseSettingsComponent.getAllUserDetails u f o s).1 = s) := by
  refine ⟨?_, ?_, ?_, ?_⟩
  · intro u f o s
    rcases o with _ | msg <;>
      by_cases huid : (resolveUid u f).isEmpty <;>
        simp [ExpenseSettingsComponent.saveCategories, huid]
  · intro u f o s
    rcases o with _ | msg <;>
      by_cases huid : (resolveUid u f).isEmpty <;>
        simp [ExpenseSettingsComponent.saveTypes, huid]
  · intro u f o s huid
    rcases o with snap | msg <;>
      simp [ExpenseSettingsComponent.getAllUserDetails, huid]
  · intro u f o s huid
    simp [ExpenseSettingsComponent.getAllUserDetails, huid]

/-- Concrete instantiation of the amended claim C10: a successful load for
user u1 finishes with the categories loading flag cleared. -/
theorem inProgress_flags_cleared_amended_witness :
    (ExpenseSettingsComponent.getAllUserDetails "u1" "" (LoadOutcome.success none)
        { categoriesSignal := [], copyCategoriesSignal := [], sourceTypeSignal := [],
          sourceTypeSignalOriginal := [], serviceCategories := [], serviceSourceTypes := [],
          isLoadingUserInformation := false, isLoadingUserCategories := false,
          isUpdatingCategories := false,
          isUpdatingSourceTypes := false }).1.isLoadingUserCategories = false :=
  (inProgress_flags_cleared_amended.2.2.1 "u1" "" (LoadOutcome.success none) _ (by rfl)).2

/-- Claim C3: batchUpdateExpenses submits exactly one multi-path update
whose entries rewrite, in order, each key k of the mapping to
users/uid/expenses/k with its value unchanged (none meaning delete); an
entry path belongs to the submitted update exactly when it scopes a key
of the mapping; the legacy convention resolves the id from the session
and equals the explicit form, and with no session it fails with the
not-signed-in error and issues no effect at all. -/
theorem batchUpdateExpenses_multipath :
    (∀ (uid : String) (updates : List (String × Option Expense)),
       DatabaseService.batchUpdateExpenses uid updates =
         [Effect.storeMultiUpdate
           (updates.map (fun kv => ("users/" ++ uid ++ "/expenses/" ++ kv.1, kv.2)))]) ∧
    (∀ (uid : String) (updates : List (String × Option Expense))
       (p : String) (v : Option Expense),
       (p, v) ∈ DatabaseService.scopedUpdates uid updates ↔
         ∃ k, (k, v) ∈ updates ∧ p = "users/" ++ uid ++ "/expenses/" ++ k) ∧
    (∀ (uid : String) (updates : List (String × Option Expense)),
       uid.isEmpty = false →
       DatabaseService.batchUpdateExpensesLegacy (some uid) updates =
         Except.ok (DatabaseService.batchUpdateExpenses uid updates)) ∧
    (∀ updates : List (String × Option Expense),
       DatabaseService.batchUpdateExpensesLegacy none updates =
         Except.error "Not signed in" ∧
       ∀ es, DatabaseService.batchUpdateExpensesLegacy none updates ≠ Except.ok es) := by
  refine ⟨?_, ?_, ?_, ?_⟩
  · intro uid updates
    rfl
  · intro uid updates p v
    constructor
    · intro hmem
      rcases List.mem_map.mp hmem with ⟨kv, hkv, hvp⟩
      cases hvp
      exact ⟨kv.1, by simpa using hkv, rfl⟩
    · rintro ⟨k, hk, rfl⟩
      exact List.mem_map.mpr ⟨(k, v), hk, rfl⟩
  · intro uid updates huid
    simp [DatabaseService.batchUpdateExpensesLegacy, huid]
  · intro updates
    exact ⟨rfl, fun es h => by simp [DatabaseService.batchUpdateExpensesLegacy] at h⟩

/-- Concrete instantiation of claim C3: a legacy call under session u1
with one replace and one delete equals the explicit call scoping both
keys. -/
theorem batchUpdateExpenses_multipath_witness :
    DatabaseService.batchUpdateExpensesLegacy (some "u1")
        [("k1", some { payload := "e1" }), ("k2", none)] =
      Except.ok [Effect.storeMultiUpdate
        [("users/u1/expenses/k1", some { payload := "e1" }),
         ("users/u1/expenses/k2", none)]] := by
  have h := batchUpdateExpenses_multipath.2.2.1 "u1"
    [("k1", some { payload := "e1" }), ("k2", none)] (by rfl)
  rw [h, batchUpdateExpenses_multipath.1]
  rfl

theorem filterMap_some_eq_map {α β : Type} (g : α → β) (l : List α) :
    l.filterMap (fun x => some (g x)) = l.map g := by
  induction l with
  | nil => rfl
  | cons x xs ih => simp [List.filterMap_cons, ih]

theorem batchPushEntries_all_some (keys : Nat → String) (expenses : List Expense)
    (userId : String) :
    DatabaseService.batchPushEntries (fun i => some (keys i)) expenses userId =
      expenses.enum.map (fun ie =>
        ("users/" ++ userId ++ "/expenses/" ++ keys ie.1, ie.2)) := by
  show expenses.enum.filterMap (fun ie =>
      some ("users/" ++ userId ++ "/expenses/" ++ keys ie.1, ie.2)) = _
  rw [filterMap_some_eq_map]

/-- Claim C7: with the store allocating a key for every push (keys i is
the i-th generated key), batchPushExpensesWithBatch submits a single
multi-path update whose entries map, in order, the i-th generated key's
path to the i-th expense; the update map has exactly one entry per input
expense and its values are exactly the input expenses in order. -/
theorem batchPushExpensesWithBatch_single_write (keys : Nat → String)
    (expenses : List Expense) (userId : String) :
    DatabaseService.batchPushExpensesWithBatch (fun i => some (keys i)) expenses userId =
      [Effect.storeMultiUpdate (expenses.enum.map (fun ie =>
          ("users/" ++ userId ++ "/expenses/" ++ keys ie.1, some ie.2)))] ∧
    (DatabaseService.batchPushEntries (fun i => some (keys i)) expenses userId).length =
      expenses.length ∧
    (DatabaseService.batchPushEntries (fun i => some (keys i)) expenses
        userId).map Prod.snd = expenses := by
  have he := batchPushEntries_all_some keys expenses userId
  refine ⟨?_, ?_, ?_⟩
  · simp only [DatabaseService.batchPushExpensesWithBatch, he, List.map_map]
    simp [Function.comp_def]
  · simp [he]
  · simp only [he, List.map_map]
    simp [Function.comp_def]

/-- Claim C9: once sign-out completes, the session state is reset
wholesale: no user, empty expense collection, empty imported-files list,
no time-frame filter, and both taxonomies restored to fresh defaults; the
result carries no dependence on the pre-logout session state, so nothing
of a previous session can leak into the next session's load. -/
theorem logout_clears_session :
    (∀ s : LayoutComponent.SessionState,
       (LayoutComponent.logout s).user = none ∧
       (LayoutComponent.logout s).dataService.expensesData = [] ∧
       (LayoutComponent.logout s).dataService.timeFrameFilter = none ∧
       (LayoutComponent.logout s).dataService.filesImported = [] ∧
       (LayoutComponent.logout s).dataService.categoriesSignal =
         defaultExpenseCategories ∧
       (LayoutComponent.logout s).dataService.expenseSources = defaultExpenseTypes) ∧
    ∀ s t : LayoutComponent.SessionState,
      LayoutComponent.logout s = LayoutComponent.logout t :=
  ⟨fun _ => ⟨rfl, rfl, rfl, rfl, rfl, rfl⟩, fun _ _ => rfl⟩

theorem debounceTimeF_burst {α : Type} (d : Nat) (events : List (Nat × α))
    (hne : events ≠ [])
    (h : List.Chain' (fun p q => q.1 < p.1 + d) events) :
    DatabaseService.debounceTimeF d events =
      [((events.getLast hne).1 + d, (events.getLast hne).2)] := by
  induction events with
  | nil => exact absurd rfl hne
  | cons x xs ih =>
      obtain ⟨t1, a1⟩ := x
      cases xs with
      | nil => simp [DatabaseService.debounceTimeF]
      | cons y ys =>
          obtain ⟨t2, a2⟩ := y
          rw [List.chain'_cons] at h
          have hy : (t2, a2) :: ys ≠ [] := by simp
          have hstep : DatabaseService.debounceTimeF d ((t1, a1) :: (t2, a2) :: ys) =
              DatabaseService.debounceTimeF d ((t2, a2) :: ys) := by
            simp [DatabaseService.debounceTimeF, h.1]
          rw [hstep, ih hy h.2, List.getLast_cons hy]

theorem distinctStep_chain' {α : Type} (ser : α → String) (l : List α) :
    ∀ prev, List.Chain' (fun a b => ¬ ser a = ser b)
      (prev :: DatabaseService.distinctStep ser prev l) := by
  induction l with
  | nil =>
      intro prev
      simp [DatabaseService.distinctStep]
  | cons x xs ih =>
      intro prev
      by_cases h : ser x = ser prev
      · simpa [DatabaseService.distinctStep, h] using ih prev
      · have hx := ih x
        simp only [DatabaseService.distinctStep, if_neg h]
        exact List.Chain'.cons (fun hh => h hh.symm) hx

theorem distinctUntilChangedSer_chain' {α : Type} (ser : α → String) (l : List α) :
    List.Chain' (fun a b => ¬ ser a = ser b)
      (DatabaseService.distinctUntilChangedSer ser l) := by
  cases l with
  | nil => simp [DatabaseService.distinctUntilChangedSer]
  | cons x xs => exact distinctStep_chain' ser xs x

theorem distinctStep_sublist {α : Type} (ser : α → String) (l : List α) :
    ∀ prev, (DatabaseService.distinctStep ser prev l).Sublist l := by
  induction l with
  | nil =>
      intro prev
      simp [DatabaseService.distinctStep]
  | cons x xs ih =>
      intro prev
      by_cases h : ser x = ser prev
      · simp only [DatabaseService.distinctStep, if_pos h]
        exact (ih prev).cons x
      · simp only [DatabaseService.distinctStep, if_neg h]
        exact (ih x).cons₂ x

theorem distinctUntilChangedSer_sublist {α : Type} (ser : α → String) (l : List α) :
    (DatabaseService.distinctUntilChangedSer ser l).Sublist l := by
  cases l with
  | nil => simp [DatabaseService.distinctUntilChangedSer]
  | cons x xs =>
      show (x :: DatabaseService.distinctStep ser x xs).Sublist (x :: xs)
      exact (distinctStep_sublist ser xs x).cons₂ x

theorem debounceTimeF_map_snd_sublist {α : Type} (d : Nat)
    (events : List (Nat × α)) :
    ((DatabaseService.debounceTimeF d events).map Prod.snd).Sublist
      (events.map Prod.snd) := by
  induction events with
  | nil => simp [DatabaseService.debounceTimeF]
  | cons x xs ih =>
      obtain ⟨t1, a1⟩ := x
      cases xs with
      | nil => simp [DatabaseService.debounceTimeF]
      | cons y ys =>
          obtain ⟨t2, a2⟩ := y
          by_cases h : t2 < t1 + d
          · simp only [DatabaseService.debounceTimeF, if_pos h]
            exact ih.cons a1
          · simp only [DatabaseService.debounceTimeF, if_neg h, List.map_cons]
            exact ih.cons₂ a1

/-- Claim C6: the subscription pipeline (a) coalesces any burst whose
consecutive events each arrive inside the 500-unit quiet window into
exactly one emission carrying the burst's final state, (b) never delivers
two consecutive emissions with identical serialized content, and (c)
delivers emission payloads as an in-order subsequence of the underlying
stream's payloads. -/
theorem getUserExpenses_debounce_distinct :
    (∀ {α : Type} (ser : α → String) (events : List (Nat × α)) (hne : events ≠ []),
       List.Chain' (fun p q => q.1 < p.1 + 500) events →
       DatabaseService.getUserExpenses ser events =
         [((events.getLast hne).1 + 500, (events.getLast hne).2)]) ∧
    (∀ {α : Type} (ser : α → String) (events : List (Nat × α)),
       List.Chain' (fun p q => ¬ ser p.2 = ser q.2)
         (DatabaseService.getUserExpenses ser events)) ∧
    (∀ {α : Type} (ser : α → String) (events : List (Nat × α)),
       ((DatabaseService.getUserExpenses ser events).map Prod.snd).Sublist
         (events.map Prod.snd)) := by
  refine ⟨?_, ?_, ?_⟩
  · intro α ser events hne hb
    rw [DatabaseService.getUserExpenses, debounceTimeF_burst 500 events hne hb]
    rfl
  · intro α ser events
    exact distinctUntilChangedSer_chain' (fun p => ser p.2)
      (DatabaseService.debounceTimeF 500 events)
  · intro α ser events
    exact ((distinctUntilChangedSer_sublist (fun p => ser p.2)
        (DatabaseService.debounceTimeF 500 events)).map Prod.snd).trans
      (debounceTimeF_map_snd_sublist 500 events)

/-- Concrete instantiation of claim C6's coalescing scenario: two change
events with identical serialized content arriving 100 units apart produce
exactly one emission, carrying the final state. -/
theorem getUserExpenses_debounce_distinct_witness :
    DatabaseService.getUserExpenses (fun s : String => s)
        [((0 : Nat), "a"), (100, "a")] = [(600, "a")] := by
  have h := getUserExpenses_debounce_distinct.1 (fun s : String => s)
    [((0 : Nat), "a"), (100, "a")] (by simp) (by simp [List.chain'_cons])
  simpa using h
